/-
Verification of the Steelmind_OS kernel against its specification.

Shallow embedding of the relevant kernel subsystems:
  * the RAM-disk container format (kernel/src/ram_disk.rs and the encoder
    in bootimage/src/main.rs),
  * the physical frame allocator (kernel/src/memory.rs, BootInfoFrameAllocator),
  * the virtual-memory manager and four-level page tables
    (kernel/src/memory.rs together with the x86_64 crate's MappedPageTable
    walker used by it),
  * the local-APIC timer start path (kernel/src/apic.rs),
  * the PIT channel-2 driver (kernel/src/pit.rs),
  * the heap rescue-growth computation (kernel/src/allocator.rs).

Machine integers are modelled as Nat with explicit `% 2 ^ 64` where u64
wrap-around matters.  Fallible code returns Option/Except; panicking
assertion paths (the kernel's `ass!` macro) are modelled as a dedicated
failure outcome.
-/
import Mathlib

/-! ## RAM-disk container (kernel/src/ram_disk.rs, bootimage/src/main.rs) -/

/-- Little-endian byte decomposition: `leBytes k x` is the list of the `k`
low-order bytes of `x`, least significant first (as `u64::to_le_bytes`). -/
def leBytes : Nat → Nat → List Nat
  | 0, _ => []
  | k + 1, x => (x % 256) :: leBytes k (x / 256)

/-- The 8 little-endian bytes of a `u64` value (`u64::to_le_bytes`). -/
def u64le (x : Nat) : List Nat := leBytes 8 x

/-- Recombine a little-endian byte list into a number (reading a `u64`
through the raw-parts `u64` slice in `ram_disk.rs`). -/
def lePack (l : List Nat) : Nat := l.foldr (fun b acc => b + 256 * acc) 0

/-- `readU64 b i` models `ramdisk_u64_slice[i]`: the little-endian `u64` at
byte offset `8 * i` of the ram-disk memory `b`. -/
def readU64 (b : List Nat) (i : Nat) : Nat := lePack ((b.drop (8 * i)).take 8)

/-- One byte step of CRC-32 (IEEE, reflected polynomial 0xEDB88320), the
algorithm of the `pruefung` crate's `Crc32` used on both the encoder and the
kernel side.  The low byte of the running value is xored with the input
byte, then eight reflected polynomial-division steps are applied. -/
def crc32Byte (crc b : Nat) : Nat :=
  let step : Nat → Nat := fun x => if x % 2 = 1 then (x / 2) ^^^ 0xEDB88320 else x / 2
  step (step (step (step (step (step (step (step (crc ^^^ (b % 256)))))))))

/-- CRC-32 of a byte list: init `0xFFFFFFFF`, per-byte steps, final xor. -/
def crc32 (l : List Nat) : Nat := (l.foldl crc32Byte 0xFFFFFFFF) ^^^ 0xFFFFFFFF

/-- Cumulative region-end offsets of the container (`Image::region_ends` in
bootimage/src/main.rs): entry `j` is the total length of files `0..=j`. -/
def regionEnds (files : List (List Nat)) : List Nat :=
  (List.range files.length).map (fun j => (((files.take (j + 1)).map List.length)).sum)

/-- The container bytes from offset 16 on: file count, region ends, payload
(`region_lengths_buf ++ buffer` in `Image::build`). -/
def encodeBody (files : List (List Nat)) : List Nat :=
  u64le files.length ++ ((regionEnds files).map u64le).flatten ++ files.flatten

/-- Total container length as computed by `Image::build`:
`region_lengths_buf.len() + buffer.len() + 8 + 8`. -/
def encodeLen (files : List (List Nat)) : Nat :=
  8 * (files.length + 1) + files.flatten.length + 8 + 8

/-- The full container produced by `Image::build`: total length, CRC-32 of
everything from offset 16, then the body. -/
def encode (files : List (List Nat)) : List Nat :=
  u64le (encodeLen files) ++ u64le (crc32 (encodeBody files)) ++ encodeBody files

/-- `get_file_slice` from kernel/src/ram_disk.rs.  `b` is the ram-disk
memory; the `ass!(index, <, file_count)` panic is modelled by returning
`none`.  Reads file count at u64 index 2 and region ends from index 3 on,
then slices the payload. -/
def get_file_slice (b : List Nat) (index : Nat) : Option (List Nat) :=
  let file_count := readU64 b 2
  if index < file_count then
    let raw_file_start := if index = 0 then 0 else readU64 b (3 + (index - 1))
    let file_size :=
      if index = 0 then readU64 b 3
      else readU64 b (3 + index) - readU64 b (3 + (index - 1))
    let file_start := raw_file_start + (file_count + 3) * 8
    some ((b.drop file_start).take file_size)
  else
    none

/-- `get_file_count` from kernel/src/ram_disk.rs: the u64 at index 2. -/
def get_file_count (b : List Nat) : Nat := readU64 b 2

/-- `assert_soundness` from kernel/src/ram_disk.rs, as a Bool: `true` iff no
`ass!` fires.  `b` is the ram-disk memory seen by the kernel, so
`b.length` plays the role of `bootinfo.ramdisk_len`; the
`ramdisk_addr.is_some()` assertion is implicit in having the memory at all.
The checks run in source order with short-circuiting, matching the panic
order; by the time the last check runs the read length equals `b.length ≥ 33`,
so the u64 subtraction cannot wrap. -/
def assert_soundness (b : List Nat) : Bool :=
  decide (8 + 8 + 8 + 8 + 1 ≤ b.length) &&
  (readU64 b 0 == b.length) &&
  (readU64 b 1 == crc32 (b.drop (8 + 8))) &&
  (readU64 b 2 ≤ (readU64 b 0 - 8 - 8 - 8) / 9)

/-! ## Physical frame allocator (kernel/src/memory.rs, BootInfoFrameAllocator)

The free list lives inside the free frames themselves (each free frame's
first bytes hold a `FreeNode { next, frame }` reached through the physical
identity window).  `deallocate_frame` writes a node whose `next` is the old
head and whose `frame` field is the deallocated frame, then makes it the
head; `allocate_frame` unlinks the head and returns its `frame` field.
With uncorrupted node memory this chain is exactly a list of frame
addresses, which is how the state is modelled here. -/

structure BootInfoFrameAllocator where
  free_memory_head : List Nat
  total_frames : Nat
  free_frames : Nat
deriving DecidableEq, Repr

/-- `BootInfoFrameAllocator::allocate_frame`: pop the head of the free list,
decrement `free_frames`; `None` when the list is empty. -/
def allocate_frame (a : BootInfoFrameAllocator) : Option Nat × BootInfoFrameAllocator :=
  match a.free_memory_head with
  | [] => (none, a)
  | f :: rest =>
    (some f, { a with free_memory_head := rest, free_frames := a.free_frames - 1 })

/-- `BootInfoFrameAllocator::deallocate_frame`: link a node for `f` in front
of the old head, increment `free_frames`. -/
def deallocate_frame (a : BootInfoFrameAllocator) (f : Nat) : BootInfoFrameAllocator :=
  { a with free_memory_head := f :: a.free_memory_head,
           free_frames := a.free_frames + 1 }

/-- A call in a client trace of the frame allocator. -/
inductive AllocOp where
  | alloc : AllocOp
  | dealloc : Nat → AllocOp

/-- Run a trace of allocator calls, additionally tracking the number of
frames handed out by `allocate_frame` and not yet returned (the ghost
"in use" count of the specification). -/
def runOps : BootInfoFrameAllocator → Nat → List AllocOp → BootInfoFrameAllocator × Nat
  | a, outstanding, [] => (a, outstanding)
  | a, outstanding, .alloc :: rest =>
    match allocate_frame a with
    | (none, a1) => runOps a1 outstanding rest
    | (some _, a1) => runOps a1 (outstanding + 1) rest
  | a, outstanding, .dealloc f :: rest => runOps (deallocate_frame a f) (outstanding - 1) rest

/-- A trace is legal when every `deallocate_frame` returns a frame that is
currently allocated (the kernel spec declares double/foreign free undefined
behavior, §4.1 of the specification). -/
def legalOps : BootInfoFrameAllocator → Nat → List AllocOp → Prop
  | _, _, [] => True
  | a, outstanding, .alloc :: rest =>
    match allocate_frame a with
    | (none, a1) => legalOps a1 outstanding rest
    | (some _, a1) => legalOps a1 (outstanding + 1) rest
  | a, outstanding, .dealloc f :: rest =>
    1 ≤ outstanding ∧ legalOps (deallocate_frame a f) (outstanding - 1) rest

/-! ## Page tables and the virtual-memory manager (kernel/src/memory.rs)

Page-table flags are modelled as a record of the named bits the kernel
uses (the x86_64 crate's `PageTableFlags` bitflags restricted to the flags
occurring in this code base); `|` on bitflags is pointwise or, `&` pointwise
and, `contains` pointwise implication. -/

structure Flags where
  present : Bool
  writable : Bool
  user_accessible : Bool
  huge_page : Bool
  no_execute : Bool
deriving DecidableEq, Repr

/-- Bitflags union (`|`). -/
def Flags.union (a b : Flags) : Flags :=
  ⟨a.present || b.present, a.writable || b.writable,
   a.user_accessible || b.user_accessible, a.huge_page || b.huge_page,
   a.no_execute || b.no_execute⟩

/-- Bitflags intersection (`&`). -/
def Flags.inter (a b : Flags) : Flags :=
  ⟨a.present && b.present, a.writable && b.writable,
   a.user_accessible && b.user_accessible, a.huge_page && b.huge_page,
   a.no_execute && b.no_execute⟩

/-- Bitflags `a.contains(b)`: every bit of `b` is set in `a`. -/
def Flags.contain (a b : Flags) : Bool :=
  (!b.present || a.present) && (!b.writable || a.writable) &&
  (!b.user_accessible || a.user_accessible) && (!b.huge_page || a.huge_page) &&
  (!b.no_execute || a.no_execute)

/-- Bitflags `is_empty`. -/
def Flags.isEmpty (a : Flags) : Bool :=
  !a.present && !a.writable && !a.user_accessible && !a.huge_page && !a.no_execute

def Flags.empty : Flags := ⟨false, false, false, false, false⟩
def Flags.PRESENT : Flags := ⟨true, false, false, false, false⟩
def Flags.WRITABLE : Flags := ⟨false, true, false, false, false⟩
def Flags.USER_ACCESSIBLE : Flags := ⟨false, false, true, false, false⟩
def Flags.HUGE_PAGE : Flags := ⟨false, false, false, true, false⟩
def Flags.NO_EXECUTE : Flags := ⟨false, false, false, false, true⟩

/-- A page-table entry: target physical frame address plus flag bits.  The
hardware packs both into one u64; `is_unused` (`entry == 0`) is address 0
with empty flags. -/
structure PTEntry where
  addr : Nat
  flags : Flags
deriving DecidableEq, Repr

def PTEntry.unused : PTEntry := ⟨0, Flags.empty⟩

/-- One 512-entry page table. -/
def PTable := Fin 512 → PTEntry

/-- `PageTable::zero`. -/
def zeroTable : PTable := fun _ => PTEntry.unused

/-- Machine state seen by the memory manager: the frame allocator, the
contents of physical memory interpreted as page tables (indexed by frame
address), and the CR3 register (frame address of the active L4 table). -/
structure Machine where
  frame_allocator : BootInfoFrameAllocator
  mem : Nat → PTable
  cr3 : Nat

/-- Write one entry of the table stored at frame address `tf`. -/
def setEntry (m : Machine) (tf : Nat) (i : Fin 512) (e : PTEntry) : Machine :=
  { m with mem :=
      Function.update m.mem tf (fun j => if j = i then e else m.mem tf j) }

/-- Page-table index of virtual address `p` at level 4/3/2/1. -/
def p4Index (p : Nat) : Fin 512 := ⟨p / 2 ^ 39 % 512, Nat.mod_lt _ (by norm_num)⟩
def p3Index (p : Nat) : Fin 512 := ⟨p / 2 ^ 30 % 512, Nat.mod_lt _ (by norm_num)⟩
def p2Index (p : Nat) : Fin 512 := ⟨p / 2 ^ 21 % 512, Nat.mod_lt _ (by norm_num)⟩
def p1Index (p : Nat) : Fin 512 := ⟨p / 2 ^ 12 % 512, Nat.mod_lt _ (by norm_num)⟩

/-- `build_addr` from kernel/src/constants.rs (the or of disjoint shifted
in-range fields equals their sum). -/
def build_addr (l4 l3 l2 l1 offset : Nat) : Nat :=
  l4 * 2 ^ 39 + l3 * 2 ^ 30 + l2 * 2 ^ 21 + l1 * 2 ^ 12 + offset

def KERNEL_START : Nat := build_addr 100 0 0 0 0
def KERNEL_END : Nat := build_addr 116 0 0 0 0

/-- `PageTableWalker::create_next_table` of the x86_64 crate (used by
`Mapper::map_to`), with `insert_flags` the parent-table flags: on an unused
entry allocate a frame, point the entry at it with `insert_flags` and zero
the new table; on an existing entry, or the missing insert flags into the
entry, then fail (`none`) if the entry maps a huge page or is not present.
Returns the machine and the frame address of the next-level table. -/
def create_next_table (m : Machine) (tf : Nat) (i : Fin 512) (insertFlags : Flags) :
    Option (Machine × Nat) :=
  let e := m.mem tf i
  if e = PTEntry.unused then
    match allocate_frame m.frame_allocator with
    | (none, _) => none
    | (some f, fa) =>
      let m1 := { m with frame_allocator := fa }
      let m2 := setEntry m1 tf i ⟨f, insertFlags⟩
      let m3 := { m2 with mem := Function.update m2.mem f zeroTable }
      some (m3, f)
  else
    let newFlags :=
      if ¬insertFlags.isEmpty ∧ ¬(e.flags.contain insertFlags = true) then
        e.flags.union insertFlags
      else e.flags
    let m1 := setEntry m tf i ⟨e.addr, newFlags⟩
    if newFlags.huge_page then none
    else if ¬newFlags.present then none
    else some (m1, e.addr)

/-- `Mapper::map_to` for a 4 KiB page on the active L4 table: parent-table
flags are `flags & (PRESENT | WRITABLE | USER_ACCESSIBLE)`; walk/create
L3, L2, L1, then fail if the leaf entry is already used, else write
`frame` with `flags`.  `none` models the mapping errors that
`Memory::map_frame` promotes to panics. -/
def map_to (m : Machine) (page frame : Nat) (flags : Flags) : Option Machine :=
  let parentFlags := flags.inter
    ((Flags.PRESENT.union Flags.WRITABLE).union Flags.USER_ACCESSIBLE)
  match create_next_table m m.cr3 (p4Index page) parentFlags with
  | none => none
  | some (m1, p3f) =>
    match create_next_table m1 p3f (p3Index page) parentFlags with
    | none => none
    | some (m2, p2f) =>
      match create_next_table m2 p2f (p2Index page) parentFlags with
      | none => none
      | some (m3, p1f) =>
        if m3.mem p1f (p1Index page) = PTEntry.unused then
          some (setEntry m3 p1f (p1Index page) ⟨frame, flags⟩)
        else none

/-- `Memory::map_ram_kernel`: assert the page start lies in
`[KERNEL_START, KERNEL_END)` (`none` models the `ass!` panic), allocate a
frame (`none` models the out-of-memory panic), map it with
`flags | PRESENT`, return the frame. -/
def map_ram_kernel (m : Machine) (page : Nat) (flags : Flags) : Option (Machine × Nat) :=
  if ¬(KERNEL_START ≤ page ∧ page < KERNEL_END) then none
  else
    match allocate_frame m.frame_allocator with
    | (none, _) => none
    | (some frame, fa) =>
      let m1 := { m with frame_allocator := fa }
      match map_to m1 page frame (flags.union Flags.PRESENT) with
      | none => none
      | some m2 => some (m2, frame)

/-- The walker's `next_table` step used by `Mapper::unmap`: follow an entry
that is present and not huge. -/
def next_table_frame (m : Machine) (tf : Nat) (i : Fin 512) : Option Nat :=
  let e := m.mem tf i
  if ¬e.flags.present then none
  else if e.flags.huge_page then none
  else some e.addr

/-- `Mapper::unmap` (via `Memory::unmap`): walk to the L1 table, require a
present non-huge leaf, clear it, return the unmapped frame.  `none` models
the unmap errors that `Memory::unmap` promotes to panics. -/
def unmap (m : Machine) (page : Nat) : Option (Machine × Nat) :=
  match next_table_frame m m.cr3 (p4Index page) with
  | none => none
  | some p3f =>
    match next_table_frame m p3f (p3Index page) with
    | none => none
    | some p2f =>
      match next_table_frame m p2f (p2Index page) with
      | none => none
      | some p1f =>
        let e := m.mem p1f (p1Index page)
        if ¬e.flags.present then none
        else if e.flags.huge_page then none
        else some (setEntry m p1f (p1Index page) PTEntry.unused, e.addr)

/-- `Memory::unmap_ram`: unmap, then deallocate the returned frame. -/
def unmap_ram (m : Machine) (page : Nat) : Option Machine :=
  match unmap m page with
  | none => none
  | some (m1, frame) =>
    some { m1 with frame_allocator := deallocate_frame m1.frame_allocator frame }

/-- `create_new_l4_page_table` from kernel/src/memory.rs (the body of
`Memory::create_user_page_table`): allocate a frame for the new top-level
table, zero it, copy the kernel slice `KERNEL_L4_PAGE_TABLE_RANGE = 100..116`
from the active table.  Returns the machine and the new table's frame;
`none` models the `expect("Out of memory")` panic. -/
def create_new_l4_page_table (m : Machine) : Option (Machine × Nat) :=
  match allocate_frame m.frame_allocator with
  | (none, _) => none
  | (some f, fa) =>
    let newTable : PTable := fun i =>
      if 100 ≤ i.val ∧ i.val < 116 then m.mem m.cr3 i else PTEntry.unused
    some ({ frame_allocator := fa, mem := Function.update m.mem f newTable,
            cr3 := m.cr3 }, f)

/-! ## APIC timer (kernel/src/apic.rs) -/

/-- The per-core data fields touched by `Apic::start_timer`
(kernel/src/smp.rs `CoreLocalData`); callbacks are modelled by an
identifying code. -/
structure CoreLocalData where
  apic_timer_ticks_per_second : Option Nat
  apic_timer_interrupt_function : Option Nat
deriving DecidableEq, Repr

/-- How a `start_timer` call ends: programs an initial count and returns
`Ok`, returns `Err(())`, or panics (failed `unwrap`/`ass!`). -/
inductive TimerOutcome where
  | ok : Nat → TimerOutcome
  | err : TimerOutcome
  | panic : TimerOutcome
deriving DecidableEq, Repr

/-- `Apic::start_timer`, in source order: first store the new callback in
per-core data, then read the calibrated ticks-per-second (`unwrap`: panic
when absent), compute `ticks_per_second * interval_us / 1_000_000` in
wrapping u64 arithmetic, fail with `Err` when the result does not fit in
u32, and for a periodic timer panic (`ass!`) when it is zero; otherwise
program the computed initial count. -/
def start_timer (cld : CoreLocalData) (interval_us : Nat) (periodic : Bool)
    (interrupt : Nat) : CoreLocalData × TimerOutcome :=
  let cld1 := { cld with apic_timer_interrupt_function := some interrupt }
  match cld1.apic_timer_ticks_per_second with
  | none => (cld1, .panic)
  | some ticks_per_second =>
    let ticks_in_interval := (ticks_per_second * interval_us) % 2 ^ 64 / 1000000
    if 2 ^ 32 ≤ ticks_in_interval then (cld1, .err)
    else if periodic ∧ ticks_in_interval = 0 then (cld1, .panic)
    else (cld1, .ok ticks_in_interval)

/-- The tick value `ticks_per_second * interval_us / 1_000_000` as the code
computes it (u64 arithmetic). -/
def computedTicks (ticks_per_second interval_us : Nat) : Nat :=
  (ticks_per_second * interval_us) % 2 ^ 64 / 1000000

/-! ## PIT channel 2 (kernel/src/pit.rs) -/

inductive TimerResult where
  | OutOfRange : TimerResult
  | NotActive : TimerResult
deriving DecidableEq, Repr

def BASE_FREQUENCY : Nat := 1193182

/-- `pit::set`: compute `BASE_FREQUENCY * us / 1_000_000` (no u64 overflow
for `us : u16`), fail with `OutOfRange` above 16 bits, otherwise program
channel 2.  The `Ok` value carries the programmed counter. -/
def pit_set (us : Nat) : Except TimerResult Nat :=
  let counter := BASE_FREQUENCY * us / 1000000
  if 0xffff < counter then .error .OutOfRange else .ok counter

/-- Bit 0 of the port-0x61 control byte (`Control::enable_timer_counter2`). -/
def enable_timer_counter2 (c : Nat) : Bool := c.testBit 0

/-- Bit 5 of the port-0x61 control byte (`Control::status_timer_counter2`). -/
def status_timer_counter2 (c : Nat) : Bool := c.testBit 5

/-- One iteration of the `pit::wait_for_timeout` loop on a control-byte
read: `some r` means the function returns `r`, `none` means it spins on. -/
def wait_for_timeout_step (c : Nat) : Option (Except TimerResult Unit) :=
  if ¬enable_timer_counter2 c then some (.error .NotActive)
  else if status_timer_counter2 c then some (.ok ())
  else none

/-- `pit::wait_for_timeout` over a finite sequence of control-byte reads;
`none` means it is still spinning after consuming them all. -/
def wait_for_timeout : List Nat → Option (Except TimerResult Unit)
  | [] => none
  | c :: rest =>
    match wait_for_timeout_step c with
    | some r => some r
    | none => wait_for_timeout rest

/-! ## Heap rescue growth (kernel/src/allocator.rs) -/

/-- `x86_64::align_up` for a power-of-two alignment
(`(addr + align - 1) & !(align - 1)`, equal to rounding up to a multiple). -/
def alignUp (addr align : Nat) : Nat := (addr + align - 1) / align * align

/-- `u64::next_power_of_two`: double `power` (starting from 1) until it
reaches `n`; 0 maps to 1.  Stated with explicit fuel (`n` doublings always
suffice, since `n ≤ 2 ^ n`) so that it is structurally recursive. -/
def nextPow2Aux (n : Nat) : Nat → Nat → Nat
  | 0, power => power
  | fuel + 1, power => if power < n then nextPow2Aux n fuel (power * 2) else power

/-- `u64::next_power_of_two(n)`: the least power of two that is ≥ `n`. -/
def nextPow2 (n : Nat) : Nat := nextPow2Aux n n 1

/-- `min_size_to_add` of the rescue callbacks in kernel/src/allocator.rs:
the failed request's size plus alignment padding, rounded up to a power of
two (`u64::next_power_of_two`, which maps 0 to 1). -/
def min_size_to_add (old_size size align : Nat) : Nat :=
  nextPow2 (alignUp old_size align - old_size + size)

/-- `new_total_size` of the rescue callbacks:
`(min_size_to_add + old_size).next_power_of_two().max(min_size_to_add * 2)`. -/
def rescue_new_total (old_size size align : Nat) : Nat :=
  max (nextPow2 (min_size_to_add old_size size align + old_size))
    (min_size_to_add old_size size align * 2)

/-! ## Helper lemmas -/

/-- `nextPow2Aux` preserves being a power of two. -/
theorem nextPow2Aux_isPowerOfTwo (n : Nat) :
    ∀ (fuel power : Nat), power.isPowerOfTwo → (nextPow2Aux n fuel power).isPowerOfTwo
  | 0, _, h => h
  | fuel + 1, power, h => by
    unfold nextPow2Aux
    split
    · exact nextPow2Aux_isPowerOfTwo n fuel (power * 2)
        (Nat.mul2_isPowerOfTwo_of_isPowerOfTwo h)
    · exact h

/-- With enough fuel, `nextPow2Aux` does not stop below `n`. -/
theorem le_nextPow2Aux (n : Nat) :
    ∀ (fuel power : Nat), n ≤ power * 2 ^ fuel → n ≤ nextPow2Aux n fuel power
  | 0, power, h => by simpa using h
  | fuel + 1, power, h => by
    unfold nextPow2Aux
    split
    · exact le_nextPow2Aux n fuel (power * 2)
        (by rw [Nat.pow_succ, Nat.mul_comm (2 ^ fuel) 2, ← Nat.mul_assoc] at h; exact h)
    · omega

/-- `nextPow2` is a power of two. -/
theorem nextPow2_isPowerOfTwo (n : Nat) : (nextPow2 n).isPowerOfTwo :=
  nextPow2Aux_isPowerOfTwo n n 1 Nat.one_isPowerOfTwo

/-- `u64::next_power_of_two` rounds up. -/
theorem le_nextPow2 (n : Nat) : n ≤ nextPow2 n :=
  le_nextPow2Aux n n 1 (by simpa using (Nat.lt_two_pow n).le)

/-- `nextPow2` is positive. -/
theorem nextPow2_pos (n : Nat) : 1 ≤ nextPow2 n :=
  Nat.pos_of_isPowerOfTwo (nextPow2_isPowerOfTwo n)

/-- A power of two strictly above a power of two is at least its double. -/
theorem pow_two_double_le {p q : Nat} (hp : p.isPowerOfTwo) (hq : q.isPowerOfTwo)
    (h : q < p) : 2 * q ≤ p := by
  obtain ⟨a, rfl⟩ := hp
  obtain ⟨b, rfl⟩ := hq
  have hab : b < a := (Nat.pow_lt_pow_iff_right (by norm_num)).mp h
  calc 2 * 2 ^ b = 2 ^ (b + 1) := by rw [Nat.pow_succ, Nat.mul_comm]
    _ ≤ 2 ^ a := Nat.pow_le_pow_right (by norm_num) hab

/-- The first component of `start_timer` always carries the new callback
(it is stored before anything can fail). -/
theorem start_timer_fst (cld : CoreLocalData) (us : Nat) (periodic : Bool) (cb : Nat) :
    (start_timer cld us periodic cb).1 =
      { cld with apic_timer_interrupt_function := some cb } := by
  obtain ⟨t, c⟩ := cld
  simp only [start_timer]
  cases t <;> dsimp only
  · split
    · rfl
    · split <;> rfl

/-! ## Claims -/

/-- C9: the frame allocator free list is LIFO: deallocating `f` and then
allocating returns `Some f` and restores the allocator state exactly. -/
theorem dealloc_alloc_roundtrip (a : BootInfoFrameAllocator) (f : Nat) :
    allocate_frame (deallocate_frame a f) = (some f, a) := by
  simp [allocate_frame, deallocate_frame]

/-- C7: `pit::set` fails with `OutOfRange` exactly when the computed counter
`1_193_182 * us / 1_000_000` exceeds `0xFFFF` (in particular at `us = 60_000`),
and `pit::wait_for_timeout` returns `NotActive` when the channel-2 enable bit
of the control byte is clear. -/
theorem pit_set_wait_spec :
    (∀ us : Nat, pit_set us = .error .OutOfRange ↔
      0xffff < BASE_FREQUENCY * us / 1000000) ∧
    pit_set 60000 = .error .OutOfRange ∧
    (∀ (c : Nat) (reads : List Nat), enable_timer_counter2 c = false →
      wait_for_timeout (c :: reads) = some (.error .NotActive)) := by
  refine ⟨fun us => ?_, by rfl, fun c reads hc => ?_⟩
  · simp only [pit_set]
    split <;> simp_all
  · simp [wait_for_timeout, wait_for_timeout_step, hc]

/-- C7 witness: the `NotActive` branch applied at the control byte 0. -/
theorem pit_set_wait_spec_witness :
    wait_for_timeout [0] = some (.error .NotActive) :=
  pit_set_wait_spec.2.2 0 [] (by decide)

/-- C10: `start_timer` stores the new callback in per-core data before the
tick computation, so a call failing with tick overflow has already replaced
the previously installed callback. -/
theorem start_timer_err_replaces_callback (cld : CoreLocalData) (us : Nat)
    (periodic : Bool) (cb : Nat)
    (_hfail : (start_timer cld us periodic cb).2 = .err) :
    ((start_timer cld us periodic cb).1).apic_timer_interrupt_function = some cb := by
  rw [start_timer_fst]

/-- C10 witness: a concrete overflowing call (ticks-per-second
`10^6 * 2^32`, interval 1 µs) fails and has replaced the callback. -/
theorem start_timer_err_replaces_callback_witness :
    ((start_timer ⟨some (1000000 * 2 ^ 32), none⟩ 1 true 5).1).apic_timer_interrupt_function
      = some 5 :=
  start_timer_err_replaces_callback ⟨some (1000000 * 2 ^ 32), none⟩ 1 true 5 (by decide)

/-- C3 counterexample: a periodic `start_timer` call whose computed tick
value is 0 (here ticks-per-second `10^6`, interval 0 µs) panics on the
`ass!(ticks_in_interval > 0)` assertion: it neither programs an initial
count nor returns at all, although the computed tick value does not exceed
`2^32 - 1`. -/
theorem start_timer_periodic_zero_panics :
    start_timer ⟨some 1000000, none⟩ 0 true 7 = (⟨some 1000000, some 7⟩, .panic) ∧
    ¬2 ^ 32 - 1 < computedTicks 1000000 0 := by
  exact ⟨rfl, by decide⟩

/-- C3 (amended): with calibrated ticks-per-second `tps` installed,
`start_timer` returns failure iff the computed 64-bit tick value
`tps * interval_us / 10^6` (wrapping u64 arithmetic) exceeds `2^32 - 1`; a
successful call programs exactly that value as the initial count (so within
1 of the quotient); and in the one remaining case — a periodic timer with
computed tick value 0 — it panics on an assertion instead of returning. -/
theorem start_timer_count_spec (cld : CoreLocalData) (tps us : Nat) (periodic : Bool)
    (cb : Nat) (h : cld.apic_timer_ticks_per_second = some tps) :
    ((start_timer cld us periodic cb).2 = .err ↔ 2 ^ 32 - 1 < computedTicks tps us) ∧
    (∀ c, (start_timer cld us periodic cb).2 = .ok c → c = computedTicks tps us) ∧
    ((start_timer cld us periodic cb).2 = .panic ↔
      (periodic = true ∧ computedTicks tps us = 0)) := by
  simp only [start_timer, computedTicks, h]
  split_ifs with h1 h2
  · exact ⟨⟨fun _ => by omega, fun _ => rfl⟩,
      fun c hc => by exact absurd hc (by simp),
      ⟨fun hc => by exact absurd hc (by simp), fun ⟨hp, h0⟩ => by omega⟩⟩
  · obtain ⟨hp, h0⟩ := h2
    exact ⟨⟨fun hc => by exact absurd hc (by simp), fun hlt => by omega⟩,
      fun c hc => by exact absurd hc (by simp),
      ⟨fun _ => ⟨hp, h0⟩, fun _ => rfl⟩⟩
  · refine ⟨⟨fun hc => by exact absurd hc (by simp), fun hlt => by omega⟩,
      fun c hc => by injection hc with hc; omega,
      ⟨fun hc => by exact absurd hc (by simp), fun hpz => absurd hpz h2⟩⟩

/-- C3 witness: the error criterion applied at ticks-per-second `10^6`,
interval 3 µs. -/
theorem start_timer_count_spec_witness :
    (start_timer ⟨some 1000000, none⟩ 3 false 0).2 = .err ↔
      2 ^ 32 - 1 < computedTicks 1000000 3 :=
  (start_timer_count_spec ⟨some 1000000, none⟩ 1000000 3 false 0 rfl).1


/-- C8 counterexample: for a heap whose total is 3 bytes (`old > 0`) and a
failed 1-byte request, the rescue callback picks new total 4, which is less
than double the old total. -/
theorem rescue_new_total_not_doubling_at_3 :
    rescue_new_total 3 1 1 = 4 ∧ ¬2 * 3 ≤ rescue_new_total 3 1 1 := by
  exact ⟨rfl, by decide⟩

/-- C8 (amended): the rescue callback's new total size is a power of two,
at least twice the growth size needed for the failed request (request size
plus alignment padding, rounded up to a power of two), and strictly larger
than the old total (the heap never shrinks); it is at least double the old
total whenever the old total is a power of two (as every total the callback
itself produces is) — for totals that are not powers of two the doubling
bound can fail. -/
theorem rescue_new_total_spec (old size align : Nat) :
    (rescue_new_total old size align).isPowerOfTwo ∧
    2 * min_size_to_add old size align ≤ rescue_new_total old size align ∧
    old < rescue_new_total old size align ∧
    (old.isPowerOfTwo → 2 * old ≤ rescue_new_total old size align) := by
  have hdef : rescue_new_total old size align =
      max (nextPow2 (min_size_to_add old size align + old))
        (min_size_to_add old size align * 2) := rfl
  have hmin_pos : 1 ≤ min_size_to_add old size align := nextPow2_pos _
  have hnext_pow : (nextPow2 (min_size_to_add old size align + old)).isPowerOfTwo :=
    nextPow2_isPowerOfTwo _
  have hnext_ge : min_size_to_add old size align + old ≤
      nextPow2 (min_size_to_add old size align + old) := le_nextPow2 _
  have hle_left : nextPow2 (min_size_to_add old size align + old) ≤
      rescue_new_total old size align := hdef ▸ le_max_left _ _
  have hle_right : min_size_to_add old size align * 2 ≤
      rescue_new_total old size align := hdef ▸ le_max_right _ _
  refine ⟨?_, by omega, by omega, fun hold => ?_⟩
  · rcases Nat.le_total (nextPow2 (min_size_to_add old size align + old))
      (min_size_to_add old size align * 2) with hc | hc
    · rw [hdef, Nat.max_eq_right hc]
      exact Nat.mul2_isPowerOfTwo_of_isPowerOfTwo (nextPow2_isPowerOfTwo _)
    · rw [hdef, Nat.max_eq_left hc]
      exact hnext_pow
  · have hlt : old < nextPow2 (min_size_to_add old size align + old) := by omega
    have := pow_two_double_le hnext_pow hold hlt
    omega

/-- C8 witness: the doubling bound applied at the power-of-two total 4. -/
theorem rescue_new_total_spec_witness :
    2 * 4 ≤ rescue_new_total 4 1 1 :=
  (rescue_new_total_spec 4 1 1).2.2.2 ⟨2, rfl⟩

/-- Invariant preservation along a legal allocator trace: `free_frames`
tracks the free-list length, `total_frames` stays constant and always
equals `free_frames` plus the outstanding (allocated, not yet returned)
count. -/
theorem runOps_invariant (ops : List AllocOp) :
    ∀ (a : BootInfoFrameAllocator) (o : Nat),
      a.free_frames = a.free_memory_head.length →
      a.total_frames = a.free_frames + o →
      legalOps a o ops →
      (runOps a o ops).1.free_frames = (runOps a o ops).1.free_memory_head.length ∧
      (runOps a o ops).1.total_frames = (runOps a o ops).1.free_frames + (runOps a o ops).2 ∧
      (runOps a o ops).1.total_frames = a.total_frames := by
  induction ops with
  | nil => exact fun a o hlen htot _ => ⟨hlen, htot, rfl⟩
  | cons op rest ih =>
    intro a o hlen htot hleg
    cases op with
    | alloc =>
      rcases ha : a.free_memory_head with _ | ⟨f, tl⟩
      · have hrw : allocate_frame a = (none, a) := by
          simp [allocate_frame, ha]
        simp only [runOps, legalOps, hrw] at hleg ⊢
        exact ih a o hlen htot hleg
      · have hrw : allocate_frame a =
            (some f, { a with free_memory_head := tl, free_frames := a.free_frames - 1 }) := by
          simp [allocate_frame, ha]
        simp only [runOps, legalOps, hrw] at hleg ⊢
        have h1 := ih { a with free_memory_head := tl, free_frames := a.free_frames - 1 }
          (o + 1) (by simp [ha] at hlen ⊢; omega) (by simp [ha] at hlen; simp; omega) hleg
        simpa using h1
    | dealloc f =>
      obtain ⟨h1, hleg1⟩ := hleg
      simp only [runOps]
      have h2 := ih (deallocate_frame a f) (o - 1)
        (by simp [deallocate_frame, hlen]) (by simp [deallocate_frame]; omega) hleg1
      simpa [deallocate_frame] using h2

/-- C2: starting from the allocator as built by `new()` (all frames free,
`total = free = length of the free list`), any legal trace of
`allocate_frame`/`deallocate_frame` calls — each deallocation returning a
currently allocated frame, as required by the allocator's contract —
preserves `total_frames = free_frames + outstanding`, and once every
allocated frame has been deallocated (outstanding 0) the free-frame count
is back at its initial value.  Quantifying over all traces covers every
prefix, i.e. the invariant holds after every call. -/
theorem frame_allocator_conservation (a0 : BootInfoFrameAllocator) (ops : List AllocOp)
    (hinit : a0.free_frames = a0.free_memory_head.length)
    (hfull : a0.total_frames = a0.free_frames)
    (hleg : legalOps a0 0 ops) :
    (runOps a0 0 ops).1.total_frames
        = (runOps a0 0 ops).1.free_frames + (runOps a0 0 ops).2 ∧
    ((runOps a0 0 ops).2 = 0 →
      (runOps a0 0 ops).1.free_frames = a0.free_frames) := by
  have h := runOps_invariant ops a0 0 hinit (by omega) hleg
  exact ⟨h.2.1, fun hz => by have h1 := h.2.1; have h2 := h.2.2; omega⟩

/-- C2 witness: the trace alloc, alloc, dealloc, dealloc on a two-frame
allocator. -/
theorem frame_allocator_conservation_witness :
    (runOps ⟨[10, 11], 2, 2⟩ 0 [.alloc, .alloc, .dealloc 11, .dealloc 10]).1.total_frames
      = (runOps ⟨[10, 11], 2, 2⟩ 0 [.alloc, .alloc, .dealloc 11, .dealloc 10]).1.free_frames
        + (runOps ⟨[10, 11], 2, 2⟩ 0 [.alloc, .alloc, .dealloc 11, .dealloc 10]).2 ∧
    ((runOps ⟨[10, 11], 2, 2⟩ 0 [.alloc, .alloc, .dealloc 11, .dealloc 10]).2 = 0 →
      (runOps ⟨[10, 11], 2, 2⟩ 0 [.alloc, .alloc, .dealloc 11, .dealloc 10]).1.free_frames = 2) :=
  frame_allocator_conservation ⟨[10, 11], 2, 2⟩ [.alloc, .alloc, .dealloc 11, .dealloc 10]
    rfl rfl (by simp [legalOps, allocate_frame, deallocate_frame])

/-- C5: two address spaces created by successive `create_new_l4_page_table`
calls (frames `a` then `b` from the free list, `a ≠ b`) agree on every
top-level entry in the kernel slice `KERNEL_L4_PAGE_TABLE_RANGE = 100..116`
— both equal the active table's entry, so they reference the same
underlying lower-level table — and every entry outside the slice is zero
in both freshly created tables. -/
theorem create_user_address_space_shared_kernel_slice
    (m : Machine) (a b : Nat) (rest : List Nat)
    (hfree : m.frame_allocator.free_memory_head = a :: b :: rest)
    (hab : a ≠ b) :
    ∃ m1 m2,
      create_new_l4_page_table m = some (m1, a) ∧
      create_new_l4_page_table m1 = some (m2, b) ∧
      (∀ i : Fin 512, 100 ≤ i.val → i.val < 116 →
        m2.mem a i = m.mem m.cr3 i ∧ m2.mem b i = m.mem m.cr3 i ∧
        (m2.mem a i).addr = (m2.mem b i).addr) ∧
      (∀ i : Fin 512, ¬(100 ≤ i.val ∧ i.val < 116) →
        m2.mem a i = PTEntry.unused ∧ m2.mem b i = PTEntry.unused) := by
  rcases m with ⟨⟨head, tot, fr⟩, mem, cr3⟩
  dsimp only at hfree
  subst hfree
  refine ⟨_, _, rfl, rfl, fun i h1 h2 => ?_, fun i hni => ?_⟩
  · dsimp only [create_new_l4_page_table, allocate_frame]
    by_cases hca : cr3 = a <;>
      simp [Function.update, hab, Ne.symm hab, hca, h1, h2]
  · dsimp only [create_new_l4_page_table, allocate_frame]
    simp [Function.update, hab, Ne.symm hab, hni]

/-- C5 witness: two creations from a concrete machine with free frames 1
and 2 and an all-zero active table at frame 0. -/
theorem create_user_address_space_shared_kernel_slice_witness :
    ∃ m1 m2,
      create_new_l4_page_table ⟨⟨[1, 2], 5, 2⟩, fun _ => zeroTable, 0⟩ = some (m1, 1) ∧
      create_new_l4_page_table m1 = some (m2, 2) ∧
      (∀ i : Fin 512, 100 ≤ i.val → i.val < 116 →
        m2.mem 1 i = (fun _ => zeroTable : Nat → PTable) 0 i ∧
        m2.mem 2 i = (fun _ => zeroTable : Nat → PTable) 0 i ∧
        (m2.mem 1 i).addr = (m2.mem 2 i).addr) ∧
      (∀ i : Fin 512, ¬(100 ≤ i.val ∧ i.val < 116) →
        m2.mem 1 i = PTEntry.unused ∧ m2.mem 2 i = PTEntry.unused) :=
  create_user_address_space_shared_kernel_slice
    ⟨⟨[1, 2], 5, 2⟩, fun _ => zeroTable, 0⟩ 1 2 [] rfl (by decide)

theorem setEntry_mem_ne (m : Machine) (tf : Nat) (i : Fin 512) (e : PTEntry)
    (t : Nat) (h : t ≠ tf) : (setEntry m tf i e).mem t = m.mem t := by
  simp [setEntry, Function.update, h]

theorem setEntry_mem_self (m : Machine) (tf : Nat) (i : Fin 512) (e : PTEntry) :
    (setEntry m tf i e).mem tf = fun j => if j = i then e else m.mem tf j := by
  simp [setEntry, Function.update]

theorem setEntry_fa (m : Machine) (tf : Nat) (i : Fin 512) (e : PTEntry) :
    (setEntry m tf i e).frame_allocator = m.frame_allocator := rfl

theorem setEntry_cr3 (m : Machine) (tf : Nat) (i : Fin 512) (e : PTEntry) :
    (setEntry m tf i e).cr3 = m.cr3 := rfl

/-- `create_next_table` through an existing, present, non-huge entry (with
non-huge insert flags): it returns the entry's target, and at most
upgrades the entry's flags in place — the result is `setEntry` with some
present, non-huge flag value and the same address. -/
theorem create_next_table_existing (m : Machine) (tf : Nat) (i : Fin 512) (ins : Flags)
    (nxt : Nat) (ha : (m.mem tf i).addr = nxt)
    (hpres : (m.mem tf i).flags.present = true)
    (hhuge : (m.mem tf i).flags.huge_page = false)
    (hins : ins.huge_page = false) :
    ∃ nf : Flags, nf.present = true ∧ nf.huge_page = false ∧
      create_next_table m tf i ins =
        some (setEntry m tf i ⟨nxt, nf⟩, nxt) := by
  subst ha
  have hne : ¬m.mem tf i = PTEntry.unused := by
    intro h
    rw [h] at hpres
    simp [PTEntry.unused, Flags.empty] at hpres
  unfold create_next_table
  rw [if_neg hne]
  by_cases hc : ¬ins.isEmpty ∧ ¬((m.mem tf i).flags.contain ins = true)
  · refine ⟨(m.mem tf i).flags.union ins, ?_, ?_, ?_⟩
    · simp [Flags.union, hpres]
    · simp [Flags.union, hhuge, hins]
    · rw [if_pos hc]
      rw [if_neg (by simp [Flags.union, hhuge, hins]),
        if_neg (by simp [Flags.union, hpres])]
  · refine ⟨(m.mem tf i).flags, hpres, hhuge, ?_⟩
    rw [if_neg hc]
    rw [if_neg (by simp [hhuge]), if_neg (by simp [hpres])]


/-- `Memory::map_ram_kernel` on a machine whose intermediate tables for
`page` already exist (the active L4 entry points at table `p3f`, whose
entry points at `p2f`, whose entry points at the L1 table `p1f`; all
present, non-huge, stored in pairwise distinct frames) and whose free list
starts with `f`: it pops exactly the one frame `f`, writes the leaf entry
`⟨f, flags | PRESENT⟩` into the L1 table, and leaves the walk entries in
place (their flags at most upgraded, still present and non-huge). -/
theorem map_ram_kernel_success (m : Machine) (page : Nat) (flags : Flags)
    (f : Nat) (rest : List Nat) (p3f p2f p1f : Nat)
    (hrange : KERNEL_START ≤ page ∧ page < KERNEL_END)
    (hhead : m.frame_allocator.free_memory_head = f :: rest)
    (h4a : (m.mem m.cr3 (p4Index page)).addr = p3f)
    (h4p : (m.mem m.cr3 (p4Index page)).flags.present = true)
    (h4h : (m.mem m.cr3 (p4Index page)).flags.huge_page = false)
    (h3a : (m.mem p3f (p3Index page)).addr = p2f)
    (h3p : (m.mem p3f (p3Index page)).flags.present = true)
    (h3h : (m.mem p3f (p3Index page)).flags.huge_page = false)
    (h2a : (m.mem p2f (p2Index page)).addr = p1f)
    (h2p : (m.mem p2f (p2Index page)).flags.present = true)
    (h2h : (m.mem p2f (p2Index page)).flags.huge_page = false)
    (hd3 : p3f ≠ m.cr3) (hd2 : p2f ≠ m.cr3) (hd23 : p2f ≠ p3f)
    (hd1 : p1f ≠ m.cr3) (hd13 : p1f ≠ p3f) (hd12 : p1f ≠ p2f)
    (hleaf : m.mem p1f (p1Index page) = PTEntry.unused) :
    ∃ m', map_ram_kernel m page flags = some (m', f) ∧
      m'.frame_allocator.free_memory_head = rest ∧
      m'.frame_allocator.free_frames = m.frame_allocator.free_frames - 1 ∧
      m'.frame_allocator.total_frames = m.frame_allocator.total_frames ∧
      m'.cr3 = m.cr3 ∧
      m'.mem p1f (p1Index page) = ⟨f, flags.union Flags.PRESENT⟩ ∧
      (m'.mem m.cr3 (p4Index page)).addr = p3f ∧
      (m'.mem m.cr3 (p4Index page)).flags.present = true ∧
      (m'.mem m.cr3 (p4Index page)).flags.huge_page = false ∧
      (m'.mem p3f (p3Index page)).addr = p2f ∧
      (m'.mem p3f (p3Index page)).flags.present = true ∧
      (m'.mem p3f (p3Index page)).flags.huge_page = false ∧
      (m'.mem p2f (p2Index page)).addr = p1f ∧
      (m'.mem p2f (p2Index page)).flags.present = true ∧
      (m'.mem p2f (p2Index page)).flags.huge_page = false := by
  have hinsh : ((flags.union Flags.PRESENT).inter
      ((Flags.PRESENT.union Flags.WRITABLE).union Flags.USER_ACCESSIBLE)).huge_page = false := by
    simp [Flags.inter, Flags.union, Flags.PRESENT, Flags.WRITABLE, Flags.USER_ACCESSIBLE]
  have halloc : allocate_frame m.frame_allocator =
      (some f, ⟨rest, m.frame_allocator.total_frames, m.frame_allocator.free_frames - 1⟩) := by
    simp [allocate_frame, hhead]
  obtain ⟨nf1, hnf1p, hnf1h, hstep1⟩ :=
    create_next_table_existing (⟨⟨rest, m.frame_allocator.total_frames, m.frame_allocator.free_frames - 1⟩, m.mem, m.cr3⟩ : Machine) m.cr3 (p4Index page) ((flags.union Flags.PRESENT).inter
        ((Flags.PRESENT.union Flags.WRITABLE).union Flags.USER_ACCESSIBLE)) p3f h4a h4p h4h hinsh
  obtain ⟨nf2, hnf2p, hnf2h, hstep2⟩ :=
    create_next_table_existing (setEntry (⟨⟨rest, m.frame_allocator.total_frames, m.frame_allocator.free_frames - 1⟩, m.mem, m.cr3⟩ : Machine) m.cr3 (p4Index page) ⟨p3f, nf1⟩) p3f (p3Index page) ((flags.union Flags.PRESENT).inter
        ((Flags.PRESENT.union Flags.WRITABLE).union Flags.USER_ACCESSIBLE)) p2f
      (by rw [setEntry_mem_ne _ _ _ _ _ hd3]; exact h3a)
      (by rw [setEntry_mem_ne _ _ _ _ _ hd3]; exact h3p)
      (by rw [setEntry_mem_ne _ _ _ _ _ hd3]; exact h3h)
      hinsh
  obtain ⟨nf3, hnf3p, hnf3h, hstep3⟩ :=
    create_next_table_existing (setEntry (setEntry (⟨⟨rest, m.frame_allocator.total_frames, m.frame_allocator.free_frames - 1⟩, m.mem, m.cr3⟩ : Machine) m.cr3 (p4Index page) ⟨p3f, nf1⟩) p3f (p3Index page) ⟨p2f, nf2⟩) p2f (p2Index page) ((flags.union Flags.PRESENT).inter
        ((Flags.PRESENT.union Flags.WRITABLE).union Flags.USER_ACCESSIBLE)) p1f
      (by rw [setEntry_mem_ne _ _ _ _ _ hd23, setEntry_mem_ne _ _ _ _ _ hd2]; exact h2a)
      (by rw [setEntry_mem_ne _ _ _ _ _ hd23, setEntry_mem_ne _ _ _ _ _ hd2]; exact h2p)
      (by rw [setEntry_mem_ne _ _ _ _ _ hd23, setEntry_mem_ne _ _ _ _ _ hd2]; exact h2h)
      hinsh
  have hleafM : (setEntry (setEntry (setEntry (⟨⟨rest, m.frame_allocator.total_frames, m.frame_allocator.free_frames - 1⟩, m.mem, m.cr3⟩ : Machine) m.cr3 (p4Index page) ⟨p3f, nf1⟩) p3f (p3Index page) ⟨p2f, nf2⟩) p2f (p2Index page) ⟨p1f, nf3⟩).mem p1f (p1Index page) = PTEntry.unused := by
    rw [setEntry_mem_ne _ _ _ _ _ hd12, setEntry_mem_ne _ _ _ _ _ hd13,
      setEntry_mem_ne _ _ _ _ _ hd1]
    exact hleaf
  have hp4E : (setEntry (setEntry (setEntry (setEntry (⟨⟨rest, m.frame_allocator.total_frames, m.frame_allocator.free_frames - 1⟩, m.mem, m.cr3⟩ : Machine) m.cr3 (p4Index page) ⟨p3f, nf1⟩) p3f (p3Index page) ⟨p2f, nf2⟩) p2f (p2Index page) ⟨p1f, nf3⟩) p1f (p1Index page) ⟨f, flags.union Flags.PRESENT⟩).mem m.cr3 (p4Index page) = ⟨p3f, nf1⟩ := by
    rw [setEntry_mem_ne _ _ _ _ _ (Ne.symm hd1), setEntry_mem_ne _ _ _ _ _ (Ne.symm hd2),
      setEntry_mem_ne _ _ _ _ _ (Ne.symm hd3), setEntry_mem_self]
    simp
  have hp3E : (setEntry (setEntry (setEntry (setEntry (⟨⟨rest, m.frame_allocator.total_frames, m.frame_allocator.free_frames - 1⟩, m.mem, m.cr3⟩ : Machine) m.cr3 (p4Index page) ⟨p3f, nf1⟩) p3f (p3Index page) ⟨p2f, nf2⟩) p2f (p2Index page) ⟨p1f, nf3⟩) p1f (p1Index page) ⟨f, flags.union Flags.PRESENT⟩).mem p3f (p3Index page) = ⟨p2f, nf2⟩ := by
    rw [setEntry_mem_ne _ _ _ _ _ (Ne.symm hd13), setEntry_mem_ne _ _ _ _ _ (Ne.symm hd23),
      setEntry_mem_self]
    simp
  have hp2E : (setEntry (setEntry (setEntry (setEntry (⟨⟨rest, m.frame_allocator.total_frames, m.frame_allocator.free_frames - 1⟩, m.mem, m.cr3⟩ : Machine) m.cr3 (p4Index page) ⟨p3f, nf1⟩) p3f (p3Index page) ⟨p2f, nf2⟩) p2f (p2Index page) ⟨p1f, nf3⟩) p1f (p1Index page) ⟨f, flags.union Flags.PRESENT⟩).mem p2f (p2Index page) = ⟨p1f, nf3⟩ := by
    rw [setEntry_mem_ne _ _ _ _ _ (Ne.symm hd12), setEntry_mem_self]
    simp
  have hleafE : (setEntry (setEntry (setEntry (setEntry (⟨⟨rest, m.frame_allocator.total_frames, m.frame_allocator.free_frames - 1⟩, m.mem, m.cr3⟩ : Machine) m.cr3 (p4Index page) ⟨p3f, nf1⟩) p3f (p3Index page) ⟨p2f, nf2⟩) p2f (p2Index page) ⟨p1f, nf3⟩) p1f (p1Index page) ⟨f, flags.union Flags.PRESENT⟩).mem p1f (p1Index page) = ⟨f, flags.union Flags.PRESENT⟩ := by
    rw [setEntry_mem_self]
    simp
  refine ⟨(setEntry (setEntry (setEntry (setEntry (⟨⟨rest, m.frame_allocator.total_frames, m.frame_allocator.free_frames - 1⟩, m.mem, m.cr3⟩ : Machine) m.cr3 (p4Index page) ⟨p3f, nf1⟩) p3f (p3Index page) ⟨p2f, nf2⟩) p2f (p2Index page) ⟨p1f, nf3⟩) p1f (p1Index page) ⟨f, flags.union Flags.PRESENT⟩), ?_, rfl, rfl, rfl, rfl, hleafE, ?_, ?_, ?_, ?_, ?_, ?_, ?_, ?_, ?_⟩
  · unfold map_ram_kernel
    rw [if_neg (not_not_intro hrange), halloc]
    dsimp only
    unfold map_to
    dsimp only
    rw [hstep1]
    dsimp only
    rw [hstep2]
    dsimp only
    rw [hstep3]
    dsimp only
    rw [if_pos hleafM]
  · rw [hp4E]
  · rw [hp4E]; exact hnf1p
  · rw [hp4E]; exact hnf1h
  · rw [hp3E]
  · rw [hp3E]; exact hnf2p
  · rw [hp3E]; exact hnf2h
  · rw [hp2E]
  · rw [hp2E]; exact hnf3p
  · rw [hp2E]; exact hnf3h

/-- `Translate::translate_page` of the x86_64 crate (as used by the kernel
and its tests): walk the active four-level tree; `none` when any level is
missing, huge, or the leaf is not present. -/
def translate_page (m : Machine) (page : Nat) : Option Nat :=
  match next_table_frame m m.cr3 (p4Index page) with
  | none => none
  | some p3f =>
    match next_table_frame m p3f (p3Index page) with
    | none => none
    | some p2f =>
      match next_table_frame m p2f (p2Index page) with
      | none => none
      | some p1f =>
        let e := m.mem p1f (p1Index page)
        if e.flags.present then some e.addr else none

/-- `Memory::unmap_ram` on a machine with a present, non-huge walk for
`page` and a present, non-huge leaf `⟨fr, lf⟩`: clears the leaf and pushes
`fr` back on the free list. -/
theorem unmap_ram_success (m : Machine) (page : Nat) (p3f p2f p1f fr : Nat) (lf : Flags)
    (h4a : (m.mem m.cr3 (p4Index page)).addr = p3f)
    (h4p : (m.mem m.cr3 (p4Index page)).flags.present = true)
    (h4h : (m.mem m.cr3 (p4Index page)).flags.huge_page = false)
    (h3a : (m.mem p3f (p3Index page)).addr = p2f)
    (h3p : (m.mem p3f (p3Index page)).flags.present = true)
    (h3h : (m.mem p3f (p3Index page)).flags.huge_page = false)
    (h2a : (m.mem p2f (p2Index page)).addr = p1f)
    (h2p : (m.mem p2f (p2Index page)).flags.present = true)
    (h2h : (m.mem p2f (p2Index page)).flags.huge_page = false)
    (hleaf : m.mem p1f (p1Index page) = ⟨fr, lf⟩)
    (hlp : lf.present = true) (hlh : lf.huge_page = false) :
    unmap_ram m page =
      some { setEntry m p1f (p1Index page) PTEntry.unused with
             frame_allocator := deallocate_frame m.frame_allocator fr } := by
  have w1 : next_table_frame m m.cr3 (p4Index page) = some p3f := by
    simp [next_table_frame, h4p, h4h, h4a]
  have w2 : next_table_frame m p3f (p3Index page) = some p2f := by
    simp [next_table_frame, h3p, h3h, h3a]
  have w3 : next_table_frame m p2f (p2Index page) = some p1f := by
    simp [next_table_frame, h2p, h2h, h2a]
  unfold unmap_ram unmap
  rw [w1]
  dsimp only
  rw [w2]
  dsimp only
  rw [w3]
  dsimp only
  rw [hleaf]
  dsimp only
  rw [if_neg (by simp [hlp]), if_neg (by simp [hlh])]
  rfl

/-- A page whose walk exists but whose leaf entry is not present does not
translate: the address space holds no mapping for it. -/
theorem translate_none_of_leaf_unused (m : Machine) (page : Nat) (p3f p2f p1f : Nat)
    (h4a : (m.mem m.cr3 (p4Index page)).addr = p3f)
    (h4p : (m.mem m.cr3 (p4Index page)).flags.present = true)
    (h4h : (m.mem m.cr3 (p4Index page)).flags.huge_page = false)
    (h3a : (m.mem p3f (p3Index page)).addr = p2f)
    (h3p : (m.mem p3f (p3Index page)).flags.present = true)
    (h3h : (m.mem p3f (p3Index page)).flags.huge_page = false)
    (h2a : (m.mem p2f (p2Index page)).addr = p1f)
    (h2p : (m.mem p2f (p2Index page)).flags.present = true)
    (h2h : (m.mem p2f (p2Index page)).flags.huge_page = false)
    (hleaf : (m.mem p1f (p1Index page)).flags.present = false) :
    translate_page m page = none := by
  have w1 : next_table_frame m m.cr3 (p4Index page) = some p3f := by
    simp [next_table_frame, h4p, h4h, h4a]
  have w2 : next_table_frame m p3f (p3Index page) = some p2f := by
    simp [next_table_frame, h3p, h3h, h3a]
  have w3 : next_table_frame m p2f (p2Index page) = some p1f := by
    simp [next_table_frame, h2p, h2h, h2a]
  unfold translate_page
  rw [w1]
  dsimp only
  rw [w2]
  dsimp only
  rw [w3]
  dsimp only
  rw [if_neg (by simp [hleaf])]

/-- A concrete machine for witnesses and counterexamples: active L4 table in
frame 1 whose entry 100 points at the L3 table in frame 2, which points at
the L2 table in frame 3, which points at the L1 table in frame 4 (all
present + writable); one free frame, 9. -/
def kTable (i0 tgt : Nat) : PTable :=
  fun i => if i.val = i0 then ⟨tgt, ⟨true, true, false, false, false⟩⟩ else PTEntry.unused

def exMem : Nat → PTable := fun n =>
  if n = 1 then kTable 100 2
  else if n = 2 then kTable 0 3
  else if n = 3 then kTable 0 4
  else zeroTable

def exMachine : Machine := ⟨⟨[9], 8, 1⟩, exMem, 1⟩

/-- A machine whose active L4 table (frame 1) is empty: mapping any page
must first create the L3/L2/L1 tables.  Five free frames. -/
def exEmptyMachine : Machine := ⟨⟨[2, 3, 4, 5, 6], 8, 5⟩, fun _ => zeroTable, 1⟩

/-- C4 counterexample: `map_ram_kernel` does not strip `USER_ACCESSIBLE`.
Called with `flags = USER_ACCESSIBLE` on a machine whose intermediate
tables exist, it installs the leaf mapping `USER_ACCESSIBLE | PRESENT` —
the mapping does include `USER_ACCESSIBLE`, contradicting the claim that it
never does regardless of the caller's flags. -/
theorem map_ram_kernel_user_accessible_passthrough :
    ((map_ram_kernel exMachine KERNEL_START Flags.USER_ACCESSIBLE).map
      (fun r => ((r.1.mem 4 (p1Index KERNEL_START)).flags.user_accessible, r.2)))
      = some (true, 9) := by decide

/-- C4 (amended): `map_ram_kernel` panics (asserts) unless the page start
lies in `[KERNEL_START, KERNEL_END)`; on a machine whose intermediate
tables for `page` exist and whose free list starts with `f`, it allocates
exactly the one frame `f` and installs a leaf mapping whose flags are
exactly `flags | PRESENT` — so the mapping carries `USER_ACCESSIBLE` iff
the caller passed it (nothing strips it). -/
theorem map_ram_kernel_spec (m : Machine) (page : Nat) (flags : Flags)
    (f : Nat) (rest : List Nat) (p3f p2f p1f : Nat)
    (hrange : KERNEL_START ≤ page ∧ page < KERNEL_END)
    (hhead : m.frame_allocator.free_memory_head = f :: rest)
    (h4a : (m.mem m.cr3 (p4Index page)).addr = p3f)
    (h4p : (m.mem m.cr3 (p4Index page)).flags.present = true)
    (h4h : (m.mem m.cr3 (p4Index page)).flags.huge_page = false)
    (h3a : (m.mem p3f (p3Index page)).addr = p2f)
    (h3p : (m.mem p3f (p3Index page)).flags.present = true)
    (h3h : (m.mem p3f (p3Index page)).flags.huge_page = false)
    (h2a : (m.mem p2f (p2Index page)).addr = p1f)
    (h2p : (m.mem p2f (p2Index page)).flags.present = true)
    (h2h : (m.mem p2f (p2Index page)).flags.huge_page = false)
    (hd3 : p3f ≠ m.cr3) (hd2 : p2f ≠ m.cr3) (hd23 : p2f ≠ p3f)
    (hd1 : p1f ≠ m.cr3) (hd13 : p1f ≠ p3f) (hd12 : p1f ≠ p2f)
    (hleaf : m.mem p1f (p1Index page) = PTEntry.unused) :
    (∀ (q : Nat) (g : Flags), ¬(KERNEL_START ≤ q ∧ q < KERNEL_END) →
      map_ram_kernel m q g = none) ∧
    ∃ m', map_ram_kernel m page flags = some (m', f) ∧
      m'.frame_allocator.free_memory_head = rest ∧
      m'.frame_allocator.free_frames = m.frame_allocator.free_frames - 1 ∧
      m'.frame_allocator.total_frames = m.frame_allocator.total_frames ∧
      m'.mem p1f (p1Index page) = ⟨f, flags.union Flags.PRESENT⟩ ∧
      (m'.mem p1f (p1Index page)).flags.user_accessible = flags.user_accessible := by
  constructor
  · intro q g hq
    unfold map_ram_kernel
    rw [if_pos hq]
  · obtain ⟨m', heq, hh, hf, ht, _hc, hl, _⟩ :=
      map_ram_kernel_success m page flags f rest p3f p2f p1f hrange hhead
        h4a h4p h4h h3a h3p h3h h2a h2p h2h hd3 hd2 hd23 hd1 hd13 hd12 hleaf
    refine ⟨m', heq, hh, hf, ht, hl, ?_⟩
    rw [hl]
    simp [Flags.union, Flags.PRESENT]

/-- C4 witness: mapping `KERNEL_START` with `NO_EXECUTE` on the concrete
machine. -/
theorem map_ram_kernel_spec_witness :
    ∃ m', map_ram_kernel exMachine KERNEL_START Flags.NO_EXECUTE = some (m', 9) ∧
      m'.frame_allocator.free_memory_head = [] ∧
      m'.frame_allocator.free_frames = exMachine.frame_allocator.free_frames - 1 ∧
      m'.frame_allocator.total_frames = exMachine.frame_allocator.total_frames ∧
      m'.mem 4 (p1Index KERNEL_START) = ⟨9, Flags.NO_EXECUTE.union Flags.PRESENT⟩ ∧
      (m'.mem 4 (p1Index KERNEL_START)).flags.user_accessible
        = Flags.NO_EXECUTE.user_accessible :=
  (map_ram_kernel_spec exMachine KERNEL_START Flags.NO_EXECUTE 9 [] 2 3 4
    (by decide) rfl (by decide) (by decide) (by decide) (by decide) (by decide)
    (by decide) (by decide) (by decide) (by decide) (by decide) (by decide)
    (by decide) (by decide) (by decide) (by decide) (by decide)).2

/-- C6 counterexample: on a machine whose active L4 table is empty,
`map_ram_kernel KERNEL_START; unmap_ram KERNEL_START` is not an allocator
no-op: mapping allocates four frames (three page-table levels plus the data
frame) and unmapping frees only the data frame, so the free count drops
from 5 to 2. -/
theorem map_unmap_not_allocator_noop :
    ((map_ram_kernel exEmptyMachine KERNEL_START Flags.WRITABLE).bind
      (fun r => unmap_ram r.1 KERNEL_START)).map
        (fun m2 => m2.frame_allocator.free_frames) = some 2 ∧
    exEmptyMachine.frame_allocator.free_frames = 5 := by decide

/-- C6 (amended): for a kernel-range page whose intermediate page tables
already exist (present, non-huge, pairwise distinct frames) and non-huge
flags, `map_ram_kernel page flags; unmap_ram page` restores the frame
allocator exactly — the same free list and free count as before the pair —
and leaves `page` with no mapping (it no longer translates).  When the
intermediate tables do not exist, the pair is not an allocator no-op (see
the counterexample): the tables allocated by the map are not freed by the
unmap. -/
theorem map_unmap_noop (m : Machine) (page : Nat) (flags : Flags)
    (f : Nat) (rest : List Nat) (p3f p2f p1f : Nat)
    (hrange : KERNEL_START ≤ page ∧ page < KERNEL_END)
    (hhead : m.frame_allocator.free_memory_head = f :: rest)
    (hfr : 1 ≤ m.frame_allocator.free_frames)
    (h4a : (m.mem m.cr3 (p4Index page)).addr = p3f)
    (h4p : (m.mem m.cr3 (p4Index page)).flags.present = true)
    (h4h : (m.mem m.cr3 (p4Index page)).flags.huge_page = false)
    (h3a : (m.mem p3f (p3Index page)).addr = p2f)
    (h3p : (m.mem p3f (p3Index page)).flags.present = true)
    (h3h : (m.mem p3f (p3Index page)).flags.huge_page = false)
    (h2a : (m.mem p2f (p2Index page)).addr = p1f)
    (h2p : (m.mem p2f (p2Index page)).flags.present = true)
    (h2h : (m.mem p2f (p2Index page)).flags.huge_page = false)
    (hd3 : p3f ≠ m.cr3) (hd2 : p2f ≠ m.cr3) (hd23 : p2f ≠ p3f)
    (hd1 : p1f ≠ m.cr3) (hd13 : p1f ≠ p3f) (hd12 : p1f ≠ p2f)
    (hleaf : m.mem p1f (p1Index page) = PTEntry.unused)
    (hflags : flags.huge_page = false) :
    ∃ m1 m2,
      map_ram_kernel m page flags = some (m1, f) ∧
      unmap_ram m1 page = some m2 ∧
      m2.frame_allocator.free_memory_head = m.frame_allocator.free_memory_head ∧
      m2.frame_allocator.free_frames = m.frame_allocator.free_frames ∧
      m2.frame_allocator.total_frames = m.frame_allocator.total_frames ∧
      translate_page m2 page = none := by
  obtain ⟨m1, heq, hhead1, hfree1, htot1, hcr31, hleaf1,
      h4a', h4p', h4h', h3a', h3p', h3h', h2a', h2p', h2h'⟩ :=
    map_ram_kernel_success m page flags f rest p3f p2f p1f hrange hhead
      h4a h4p h4h h3a h3p h3h h2a h2p h2h hd3 hd2 hd23 hd1 hd13 hd12 hleaf
  have h4a1 : (m1.mem m1.cr3 (p4Index page)).addr = p3f := by rw [hcr31]; exact h4a'
  have h4p1 : (m1.mem m1.cr3 (p4Index page)).flags.present = true := by rw [hcr31]; exact h4p'
  have h4h1 : (m1.mem m1.cr3 (p4Index page)).flags.huge_page = false := by rw [hcr31]; exact h4h'
  have hlp : (flags.union Flags.PRESENT).present = true := by simp [Flags.union, Flags.PRESENT]
  have hlh : (flags.union Flags.PRESENT).huge_page = false := by
    simp [Flags.union, Flags.PRESENT, hflags]
  have huneq := unmap_ram_success m1 page p3f p2f p1f f (flags.union Flags.PRESENT)
    h4a1 h4p1 h4h1 h3a' h3p' h3h' h2a' h2p' h2h' hleaf1 hlp hlh
  have hne1 : m1.cr3 ≠ p1f := by rw [hcr31]; exact Ne.symm hd1
  refine ⟨m1, _, heq, huneq, ?_, ?_, ?_, ?_⟩
  · show f :: m1.frame_allocator.free_memory_head = m.frame_allocator.free_memory_head
    rw [hhead1, hhead]
  · show m1.frame_allocator.free_frames + 1 = m.frame_allocator.free_frames
    omega
  · exact htot1
  · refine translate_none_of_leaf_unused _ page p3f p2f p1f ?_ ?_ ?_ ?_ ?_ ?_ ?_ ?_ ?_ ?_
    · show (((setEntry m1 p1f (p1Index page) PTEntry.unused).mem) m1.cr3 (p4Index page)).addr = p3f
      rw [setEntry_mem_ne _ _ _ _ _ hne1]; exact h4a1
    · show (((setEntry m1 p1f (p1Index page) PTEntry.unused).mem) m1.cr3 (p4Index page)).flags.present = true
      rw [setEntry_mem_ne _ _ _ _ _ hne1]; exact h4p1
    · show (((setEntry m1 p1f (p1Index page) PTEntry.unused).mem) m1.cr3 (p4Index page)).flags.huge_page = false
      rw [setEntry_mem_ne _ _ _ _ _ hne1]; exact h4h1
    · show (((setEntry m1 p1f (p1Index page) PTEntry.unused).mem) p3f (p3Index page)).addr = p2f
      rw [setEntry_mem_ne _ _ _ _ _ (Ne.symm hd13)]; exact h3a'
    · show (((setEntry m1 p1f (p1Index page) PTEntry.unused).mem) p3f (p3Index page)).flags.present = true
      rw [setEntry_mem_ne _ _ _ _ _ (Ne.symm hd13)]; exact h3p'
    · show (((setEntry m1 p1f (p1Index page) PTEntry.unused).mem) p3f (p3Index page)).flags.huge_page = false
      rw [setEntry_mem_ne _ _ _ _ _ (Ne.symm hd13)]; exact h3h'
    · show (((setEntry m1 p1f (p1Index page) PTEntry.unused).mem) p2f (p2Index page)).addr = p1f
      rw [setEntry_mem_ne _ _ _ _ _ (Ne.symm hd12)]; exact h2a'
    · show (((setEntry m1 p1f (p1Index page) PTEntry.unused).mem) p2f (p2Index page)).flags.present = true
      rw [setEntry_mem_ne _ _ _ _ _ (Ne.symm hd12)]; exact h2p'
    · show (((setEntry m1 p1f (p1Index page) PTEntry.unused).mem) p2f (p2Index page)).flags.huge_page = false
      rw [setEntry_mem_ne _ _ _ _ _ (Ne.symm hd12)]; exact h2h'
    · show (((setEntry m1 p1f (p1Index page) PTEntry.unused).mem) p1f (p1Index page)).flags.present = false
      rw [setEntry_mem_self]
      simp [PTEntry.unused, Flags.empty]

/-- C6 witness: map + unmap of `KERNEL_START` on the concrete machine with
existing tables. -/
theorem map_unmap_noop_witness :
    ∃ m1 m2,
      map_ram_kernel exMachine KERNEL_START Flags.WRITABLE = some (m1, 9) ∧
      unmap_ram m1 KERNEL_START = some m2 ∧
      m2.frame_allocator.free_memory_head = exMachine.frame_allocator.free_memory_head ∧
      m2.frame_allocator.free_frames = exMachine.frame_allocator.free_frames ∧
      m2.frame_allocator.total_frames = exMachine.frame_allocator.total_frames ∧
      translate_page m2 KERNEL_START = none :=
  map_unmap_noop exMachine KERNEL_START Flags.WRITABLE 9 [] 2 3 4
    (by decide) rfl (by decide) (by decide) (by decide) (by decide) (by decide)
    (by decide) (by decide) (by decide) (by decide) (by decide) (by decide)
    (by decide) (by decide) (by decide) (by decide) (by decide) (by decide)
    (by decide)

/-! ## RAM-disk lemmas and the container claims -/

theorem leBytes_length (k x : Nat) : (leBytes k x).length = k := by
  induction k generalizing x with
  | zero => rfl
  | succ k ih => simp [leBytes, ih]

theorem lePack_leBytes (k x : Nat) : lePack (leBytes k x) = x % 256 ^ k := by
  induction k generalizing x with
  | zero => simp [leBytes, lePack]
            omega
  | succ k ih =>
    have h : (256 : Nat) ^ (k + 1) = 256 * 256 ^ k := by ring
    simp only [leBytes, lePack, List.foldr] at ih ⊢
    rw [ih, h, Nat.mod_mul]

theorem u64le_length (x : Nat) : (u64le x).length = 8 := leBytes_length 8 x

theorem lePack_u64le (x : Nat) : lePack (u64le x) = x % 2 ^ 64 := by
  rw [u64le, lePack_leBytes]
  norm_num

theorem drop_u64le (x : Nat) (rest : List Nat) (n : Nat) :
    (u64le x ++ rest).drop (8 + n) = rest.drop n := by
  have h := @List.drop_append _ (u64le x) rest n
  rwa [u64le_length] at h

theorem readU64_zero (x : Nat) (rest : List Nat) :
    readU64 (u64le x ++ rest) 0 = x % 2 ^ 64 := by
  have ht : (u64le x ++ rest).take 8 = u64le x := by
    have h := @List.take_append _ (u64le x) rest 0
    simp only [u64le_length, List.take_zero, List.append_nil] at h
    exact h
  simp [readU64, ht, lePack_u64le]

theorem readU64_succ (x : Nat) (rest : List Nat) (i : Nat) :
    readU64 (u64le x ++ rest) (i + 1) = readU64 rest i := by
  have h : 8 * (i + 1) = 8 + 8 * i := by ring
  rw [readU64, h, drop_u64le, readU64]

theorem flatten_map_u64le_length (es : List Nat) :
    ((es.map u64le).flatten).length = 8 * es.length := by
  induction es with
  | nil => simp
  | cons e es ih => simp [ih, u64le_length]; ring

theorem readU64_flatten_map (es : List Nat) (rest : List Nat) :
    ∀ (j : Nat) (hj : j < es.length),
      readU64 ((es.map u64le).flatten ++ rest) j = es.get ⟨j, hj⟩ % 2 ^ 64 := by
  induction es generalizing rest with
  | nil => intro j hj; simp at hj
  | cons e es ih =>
    intro j hj
    have hsplit : ((e :: es).map u64le).flatten ++ rest
        = u64le e ++ ((es.map u64le).flatten ++ rest) := by simp
    cases j with
    | zero => rw [hsplit, readU64_zero]; rfl
    | succ j =>
      rw [hsplit, readU64_succ]
      exact ih rest j (by simpa using hj)

/-- Sum of the lengths of the first `i` files: payload offset of file `i`. -/
def prefLen (files : List (List Nat)) (i : Nat) : Nat :=
  ((files.take i).map List.length).sum

theorem regionEnds_length (files : List (List Nat)) :
    (regionEnds files).length = files.length := by simp [regionEnds]

theorem regionEnds_get (files : List (List Nat)) (j : Nat) (hj : j < files.length) :
    (regionEnds files).get ⟨j, by rw [regionEnds_length]; exact hj⟩
      = prefLen files (j + 1) := by
  simp [regionEnds, prefLen]

theorem prefLen_succ (files : List (List Nat)) :
    ∀ (i : Nat) (hi : i < files.length),
      prefLen files (i + 1) = prefLen files i + (files.get ⟨i, hi⟩).length := by
  induction files with
  | nil => intro i hi; simp at hi
  | cons f fs ih =>
    intro i hi
    cases i with
    | zero => simp [prefLen]
    | succ i =>
      have hfs : i < fs.length := by simpa using hi
      have h1 : prefLen (f :: fs) (i + 2) = f.length + prefLen fs (i + 1) := by
        simp [prefLen]
      have h2 : prefLen (f :: fs) (i + 1) = f.length + prefLen fs i := by
        simp [prefLen]
      have h3 : ((f :: fs).get ⟨i + 1, hi⟩) = fs.get ⟨i, hfs⟩ := rfl
      rw [h1, h2, h3, ih i hfs]
      omega

theorem prefLen_le (files : List (List Nat)) (i : Nat) :
    prefLen files i ≤ files.flatten.length := by
  rw [List.length_flatten, prefLen, List.map_take]
  conv_rhs => rw [← List.take_append_drop i (files.map List.length)]
  rw [List.sum_append]
  omega

theorem flatten_slice (files : List (List Nat)) :
    ∀ (i : Nat) (hi : i < files.length),
      ((files.flatten).drop (prefLen files i)).take (files.get ⟨i, hi⟩).length
        = files.get ⟨i, hi⟩ := by
  induction files with
  | nil => intro i hi; simp at hi
  | cons f fs ih =>
    intro i hi
    cases i with
    | zero =>
      show (((f :: fs).flatten).drop (prefLen (f :: fs) 0)).take f.length = f
      rw [show prefLen (f :: fs) 0 = 0 from rfl]
      rw [List.flatten_cons, List.drop_zero]
      exact List.take_left f fs.flatten
    | succ i =>
      have hfs : i < fs.length := by simpa using hi
      have hpl : prefLen (f :: fs) (i + 1) = f.length + prefLen fs i := by
        simp [prefLen]
      show (((f :: fs).flatten).drop (prefLen (f :: fs) (i + 1))).take
          (fs.get ⟨i, hfs⟩).length = fs.get ⟨i, hfs⟩
      rw [hpl, List.flatten_cons, List.drop_append]
      exact ih i hfs

theorem crc32_lt (l : List Nat) : crc32 l < 2 ^ 32 := by
  have hstep : ∀ x : Nat, x < 2 ^ 32 →
      (if x % 2 = 1 then (x / 2) ^^^ 0xEDB88320 else x / 2) < 2 ^ 32 := by
    intro x hx
    split
    · exact Nat.xor_lt_two_pow (by omega) (by norm_num)
    · omega
  have hbyte : ∀ (crc b : Nat), crc < 2 ^ 32 → crc32Byte crc b < 2 ^ 32 := by
    intro crc b h
    have h0 : crc ^^^ (b % 256) < 2 ^ 32 := Nat.xor_lt_two_pow h (by omega)
    exact hstep _ (hstep _ (hstep _ (hstep _ (hstep _ (hstep _ (hstep _ (hstep _ h0)))))))
  have hfold : ∀ (l : List Nat) (init : Nat), init < 2 ^ 32 →
      l.foldl crc32Byte init < 2 ^ 32 := by
    intro l
    induction l with
    | nil => intro init h; simpa using h
    | cons b l ih => intro init h; exact ih (crc32Byte init b) (hbyte init b h)
  exact Nat.xor_lt_two_pow (hfold l 0xFFFFFFFF (by norm_num)) (by norm_num)

theorem encode_length (files : List (List Nat)) :
    (encode files).length = encodeLen files := by
  simp only [encode, encodeBody, encodeLen, List.length_append, u64le_length,
    flatten_map_u64le_length, regionEnds_length]
  omega

theorem encode_read0 (files : List (List Nat)) :
    readU64 (encode files) 0 = encodeLen files % 2 ^ 64 := by
  rw [encode, List.append_assoc]
  exact readU64_zero _ _

theorem encode_read1 (files : List (List Nat)) :
    readU64 (encode files) 1 = crc32 (encodeBody files) := by
  rw [encode, List.append_assoc, readU64_succ, readU64_zero]
  exact Nat.mod_eq_of_lt (lt_trans (crc32_lt _) (by norm_num))

theorem encode_read2 (files : List (List Nat)) :
    readU64 (encode files) 2 = files.length % 2 ^ 64 := by
  rw [encode, List.append_assoc, readU64_succ, encodeBody, List.append_assoc,
    readU64_succ, readU64_zero]

theorem encode_read_end (files : List (List Nat)) (j : Nat) (hj : j < files.length) :
    readU64 (encode files) (3 + j) = prefLen files (j + 1) % 2 ^ 64 := by
  rw [show 3 + j = ((j + 1) + 1) + 1 by ring]
  rw [encode, List.append_assoc, readU64_succ, encodeBody, List.append_assoc,
    readU64_succ, readU64_succ]
  rw [readU64_flatten_map (regionEnds files) files.flatten j
    (by rw [regionEnds_length]; exact hj)]
  rw [regionEnds_get files j hj]

theorem encode_drop16 (files : List (List Nat)) :
    (encode files).drop 16 = encodeBody files := by
  rw [encode, List.append_assoc, show (16 : Nat) = 8 + 8 from rfl, drop_u64le,
    show (8 : Nat) = 8 + 0 from rfl, drop_u64le]
  rfl

theorem encode_drop_payload (files : List (List Nat)) (s : Nat) :
    (encode files).drop (8 * (files.length + 3) + s) = files.flatten.drop s := by
  rw [encode, List.append_assoc, encodeBody, List.append_assoc]
  rw [show 8 * (files.length + 3) + s = 8 + (8 + (8 + (8 * files.length + s))) by ring]
  rw [drop_u64le, drop_u64le, drop_u64le]
  have h := @List.drop_append _ (((regionEnds files).map u64le).flatten) files.flatten s
  rwa [flatten_map_u64le_length, regionEnds_length] at h

/-- C1 (amended): for a container encoding files `[F_0, …, F_{N-1}]` in the
documented little-endian layout (total length below `2^64`), `get_file_slice i`
returns exactly `F_i` for every `i < N` and `get_file_count` returns `N`;
`assert_soundness` passes iff, in addition to the header length matching the
RAM-disk length and the CRC-32 over bytes `[16..)` matching the header CRC
(both of which hold by construction here), the total length is at least 33
and `N ≤ (total_len - 24) / 9` — a well-formed container can still be
rejected by those two extra checks (see the counterexample). -/
theorem ram_disk_spec (files : List (List Nat)) (hlen : encodeLen files < 2 ^ 64) :
    get_file_count (encode files) = files.length ∧
    (∀ (i : Nat) (hi : i < files.length),
      get_file_slice (encode files) i = some (files.get ⟨i, hi⟩)) ∧
    (assert_soundness (encode files) = true ↔
      33 ≤ encodeLen files ∧ files.length ≤ (encodeLen files - 24) / 9) := by
  have hNlt : files.length < 2 ^ 64 := by
    have h : 8 * (files.length + 1) ≤ encodeLen files := by unfold encodeLen; omega
    omega
  have hPlt : files.flatten.length < 2 ^ 64 := by
    have h : files.flatten.length ≤ encodeLen files := by unfold encodeLen; omega
    omega
  have hend : ∀ j, j < files.length →
      readU64 (encode files) (3 + j) = prefLen files (j + 1) := by
    intro j hj
    rw [encode_read_end files j hj, Nat.mod_eq_of_lt]
    exact lt_of_le_of_lt (prefLen_le files (j + 1)) hPlt
  have hcount : readU64 (encode files) 2 = files.length := by
    rw [encode_read2, Nat.mod_eq_of_lt hNlt]
  have hpref0 : prefLen files 0 = 0 := rfl
  refine ⟨hcount, ?_, ?_⟩
  · intro i hi
    simp only [get_file_slice, hcount]
    rw [if_pos hi]
    cases i with
    | zero =>
      simp only [if_true]
      rw [show 0 + (files.length + 3) * 8 = 8 * (files.length + 3) + 0 by ring,
        encode_drop_payload]
      have hsz : readU64 (encode files) 3 = (files.get ⟨0, hi⟩).length := by
        rw [show (3 : Nat) = 3 + 0 by rfl, hend 0 hi, prefLen_succ files 0 hi, hpref0]
        omega
      rw [hsz]
      have hslice := flatten_slice files 0 hi
      rw [hpref0] at hslice
      rw [hslice]
    | succ j =>
      have hj : j < files.length := by omega
      simp only [if_neg (Nat.succ_ne_zero j)]
      rw [show j + 1 - 1 = j from rfl, hend j hj, hend (j + 1) hi]
      have hsz : prefLen files (j + 1 + 1) - prefLen files (j + 1)
          = (files.get ⟨j + 1, hi⟩).length := by
        rw [prefLen_succ files (j + 1) hi]
        omega
      rw [hsz, show prefLen files (j + 1) + (files.length + 3) * 8
          = 8 * (files.length + 3) + prefLen files (j + 1) by ring,
        encode_drop_payload]
      exact congrArg some (flatten_slice files (j + 1) hi)
  · have h0 : readU64 (encode files) 0 = encodeLen files := by
      rw [encode_read0, Nat.mod_eq_of_lt hlen]
    have h16 : (encode files).drop (8 + 8) = encodeBody files := encode_drop16 files
    simp only [assert_soundness, h0, hcount, encode_length, h16, encode_read1,
      Bool.and_eq_true, decide_eq_true_eq, Bool.and_true,
      Bool.true_and, beq_self_eq_true]
    omega

set_option maxRecDepth 8192 in
/-- C1 counterexample: the well-formed container of one empty file has a
header length field equal to the RAM-disk length and a matching CRC, yet
`assert_soundness` fails (its length is 32 < 33, and `N = 1 > (32-24)/9`),
so "passes iff length matches and CRC matches" is false. -/
theorem assert_soundness_rejects_single_empty_file :
    readU64 (encode [[]]) 0 = (encode [[]]).length ∧
    readU64 (encode [[]]) 1 = crc32 ((encode [[]]).drop 16) ∧
    assert_soundness (encode [[]]) = false := by decide

/-- C1 witness: the round trip and soundness criterion at the concrete
container of files `[1]` and `[2, 3]`. -/
theorem ram_disk_spec_witness :
    get_file_count (encode [[1], [2, 3]]) = 2 ∧
    (∀ (i : Nat) (hi : i < ([[1], [2, 3]] : List (List Nat)).length),
      get_file_slice (encode [[1], [2, 3]]) i
        = some (([[1], [2, 3]] : List (List Nat)).get ⟨i, hi⟩)) ∧
    (assert_soundness (encode [[1], [2, 3]]) = true ↔
      33 ≤ encodeLen [[1], [2, 3]] ∧ 2 ≤ (encodeLen [[1], [2, 3]] - 24) / 9) := by
  have h := ram_disk_spec [[1], [2, 3]] (by decide)
  exact ⟨h.1, h.2.1, h.2.2⟩
